import Mathlib

/-!
Verification of the wacraft-reminders core against its specification.

The Rust sources are shallowly embedded:
* `src/config/models.rs` and `src/core/wacraft/models.rs` become Lean structures
  (chrono timestamps become `Int` nanoseconds since the Unix epoch; chrono
  `Duration` values become `Int` nanoseconds, which is the exact precision of
  chrono's comparisons; token expiry timestamps, which the client handles in
  whole seconds, become `Int` seconds).
* Pure fragments (rule selection, contact-reference resolution, placeholder
  substitution) become Lean functions.
* Fallible fragments become `Except String` values; every network call is an
  oracle parameter (a function supplied by the caller), so that each code path
  around those calls is embedded exactly while the transport itself stays
  abstract.
* `get_valid_token`, whose double-checked read/write locking matters, is given
  both a sequential embedding and a small interleaving machine in which each
  lock-protected critical section is one atomic step.
-/

namespace WacraftReminders

/-! ## Data model, from `src/core/wacraft/components.rs` -/

/-- Simplified `serde_json::Value` (numbers collapsed to `Int`; no claim
inspects JSON payload contents). -/
inductive JsonValue where
  | null
  | boolean (b : Bool)
  | number (n : Int)
  | str (s : String)
  | arr (xs : List JsonValue)
  | obj (fields : List (String × JsonValue))

/-- `TextData` from `components.rs`. -/
structure TextData where
  body : String
  preview_url : Option Bool

/-- `UseMedia` from `components.rs`. -/
structure UseMedia where
  id : Option String
  link : Option String
  caption : Option String
  filename : Option String

/-- `Language` from `components.rs`. -/
structure Language where
  code : String

/-- `Parameter` from `components.rs`. -/
structure Parameter where
  parameter_type : String
  text : Option String
  image : Option UseMedia
  document : Option UseMedia

/-- `Component` from `components.rs`. -/
structure Component where
  component_type : String
  parameters : Option (List Parameter)

/-- `UseTemplate` from `components.rs`. -/
structure UseTemplate where
  name : String
  language : Language
  components : Option (List Component)

/-- `Interactive` from `components.rs`. -/
structure Interactive where
  action : JsonValue
  body : TextData

/-! ## Data model, from `src/core/wacraft/models.rs` -/

/-- `MessagePayloadBase` from `models.rs`. -/
structure MessagePayloadBase where
  messaging_product : String
  recipient_type : String
  message_type : String
  text : Option TextData
  image : Option UseMedia
  document : Option UseMedia
  audio : Option UseMedia
  video : Option UseMedia
  sticker : Option UseMedia
  template : Option UseTemplate
  interactive : Option Interactive

/-- `MessagePayload` from `models.rs`. -/
structure MessagePayload where
  base : MessagePayloadBase
  «to» : String

/-- `SendWhatsAppMessage` from `models.rs`. -/
structure SendWhatsAppMessage where
  to_id : String
  sender_data : MessagePayload

/-- `Contact` from `models.rs` (timestamps as `Int` nanoseconds). -/
structure Contact where
  id : String
  name : String
  email : Option String
  photo_path : Option String
  created_at : Int
  updated_at : Int

/-- `WhatsAppProductDetails` from `models.rs`. -/
structure WhatsAppProductDetails where
  wa_id : String
  phone_number : String

/-- `MessagingProductContact` from `models.rs`. -/
structure MessagingProductContact where
  contact_id : Option String
  messaging_product_id : Option String
  blocked : Option Bool
  last_read_at : Option Int
  contact : Option Contact
  product_details : Option WhatsAppProductDetails
  id : String
  created_at : Int
  updated_at : Int

/-- `Conversation` from `models.rs`. -/
structure Conversation where
  id : String
  from_id : Option String
  to_id : Option String
  from_contact : Option MessagingProductContact
  to_contact : Option MessagingProductContact
  created_at : Int
  updated_at : Int
  messaging_product_id : String
  receiver_data : Option JsonValue
  deleted_at : Option Int

/-- `TokenRequest` from `models.rs` (the body posted to the token endpoint). -/
structure TokenRequest where
  grant_type : String
  username : Option String
  password : Option String
  refresh_token : Option String
deriving DecidableEq

/-- `TokenResponse` from `models.rs`. -/
structure TokenResponse where
  access_token : String
  refresh_token : String
  expires_in : Int
  token_type : String
deriving DecidableEq

/-! ## Data model, from `src/config/models.rs` -/

/-- `WacraftConfig` from `config/models.rs` (`token_expires_at` is a Unix
timestamp in whole seconds, as in the source). -/
structure WacraftConfig where
  base_url : String
  email : String
  password : String
  access_token : Option String
  refresh_token : Option String
  token_expires_at : Option Int
deriving DecidableEq

/-- `EmailConfig` from `config/models.rs`. -/
structure EmailConfig where
  smtp_server : String
  smtp_port : Nat
  smtp_user : String
  smtp_password : String
  from_address : String

/-- `Settings` from `config/models.rs`. -/
structure Settings where
  wacraft : WacraftConfig
  email : EmailConfig

/-- `WacraftMessageAction` from `config/models.rs`. -/
structure WacraftMessageAction where
  sender_data : MessagePayloadBase

/-- `EmailAction` from `config/models.rs`. -/
structure EmailAction where
  subject : String
  template : String

/-- `HttpRequestAction` from `config/models.rs` (the header map becomes an
association list). -/
structure HttpRequestAction where
  method : String
  url : String
  headers : List (String × String)
  body : JsonValue

/-- `Action` from `config/models.rs`. -/
inductive Action where
  | wacraft_message (action : WacraftMessageAction)
  | email (action : EmailAction)
  | http_request (action : HttpRequestAction)

/-- `ReminderRule` from `config/models.rs`. `inactive_for_hours` is `u64` in
the source; configuration values are far below `2^63`, so it is embedded as
`Nat` with exact arithmetic. -/
structure ReminderRule where
  name : String
  inactive_for_hours : Nat
  action : Option Action

/-! ## Rule engine, from `send_reminder_to_contact` in `src/cmd/reminders.rs`
(lines 104-112) -/

/-- Nanoseconds in one hour; `chrono::Duration::hours(h)` embeds as
`durationHours h` nanoseconds. -/
def nsPerHour : Int := 3600 * 1000000000

/-- `Duration::hours(rule.inactive_for_hours as i64)` as `Int` nanoseconds. -/
def durationHours (h : Nat) : Int := (h : Int) * nsPerHour

/-- `inactive_duration = Utc::now().signed_duration_since(last_message_time)`,
in nanoseconds. -/
def inactive_duration (now last_message_time : Int) : Int :=
  now - last_message_time

/-- The comparator of `applicable_rules.sort_by(|a, b|
b.inactive_for_hours.cmp(&a.inactive_for_hours))`: `a` sorts no later than `b`
when `b.inactive_for_hours <= a.inactive_for_hours` (descending). -/
def ruleOrder (a b : ReminderRule) : Prop :=
  b.inactive_for_hours ≤ a.inactive_for_hours

instance : DecidableRel ruleOrder :=
  fun a b => inferInstanceAs (Decidable (b.inactive_for_hours ≤ a.inactive_for_hours))

instance : IsTotal ReminderRule ruleOrder :=
  ⟨fun a b => Nat.le_total b.inactive_for_hours a.inactive_for_hours⟩

instance : IsTrans ReminderRule ruleOrder :=
  ⟨fun _ _ _ hab hbc => Nat.le_trans hbc hab⟩

/-- Lines 107-112 of `reminders.rs`: stable sort descending by
`inactive_for_hours`, then take the first rule whose threshold duration is met.
Rust's `sort_by` is a stable sort, and a stable sort is uniquely determined by
its comparator, so `List.insertionSort` (which is stable) computes the
identical list. -/
def select_rule (reminders : List ReminderRule) (inactive_dur : Int) :
    Option ReminderRule :=
  let applicable_rules := reminders.insertionSort ruleOrder
  applicable_rules.find?
    (fun rule => decide (inactive_dur ≥ durationHours rule.inactive_for_hours))

/-! ### Helper lemmas for rule selection -/

theorem find?_eq_head?_filter {α : Type} (p : α → Bool) (l : List α) :
    l.find? p = (l.filter p).head? := by
  induction l with
  | nil => rfl
  | cons x xs ih =>
    by_cases h : p x = true
    · rw [List.find?_cons_of_pos _ h, List.filter_cons, if_pos h]
      rfl
    · rw [List.find?_cons_of_neg _ h, List.filter_cons, if_neg h, ih]

theorem find?_sorted_max {l : List ReminderRule} {d : Int} {r : ReminderRule}
    (hs : List.Pairwise ruleOrder l)
    (hf : l.find? (fun rule => decide (d ≥ durationHours rule.inactive_for_hours))
        = some r) :
    ∀ s ∈ l, durationHours s.inactive_for_hours ≤ d →
      s.inactive_for_hours ≤ r.inactive_for_hours := by
  induction l with
  | nil => simp at hf
  | cons x xs ih =>
    by_cases hx : durationHours x.inactive_for_hours ≤ d
    · rw [List.find?_cons_of_pos _ (by simpa [ge_iff_le] using hx)] at hf
      obtain rfl : x = r := by injection hf
      intro s hs' _
      rcases List.mem_cons.mp hs' with rfl | hmem
      · exact Nat.le_refl _
      · exact (List.pairwise_cons.mp hs).1 s hmem
    · rw [List.find?_cons_of_neg _ (by simpa [ge_iff_le] using hx)] at hf
      intro s hs' hmatch
      rcases List.mem_cons.mp hs' with rfl | hmem
      · exact absurd hmatch hx
      · exact ih (List.pairwise_cons.mp hs).2 hf s hmem hmatch

theorem filter_hours_orderedInsert (k : Nat) (x : ReminderRule)
    (l : List ReminderRule) :
    (List.orderedInsert ruleOrder x l).filter
        (fun s => decide (s.inactive_for_hours = k))
      = (if x.inactive_for_hours = k then [x] else [])
        ++ l.filter (fun s => decide (s.inactive_for_hours = k)) := by
  induction l with
  | nil =>
    show ([x].filter fun s => decide (s.inactive_for_hours = k)) = _
    by_cases hx : x.inactive_for_hours = k <;>
      simp [List.filter_cons, hx]
  | cons y ys ih =>
    by_cases hord : ruleOrder x y
    · rw [show List.orderedInsert ruleOrder x (y :: ys) = x :: y :: ys by
        simp [List.orderedInsert, if_pos hord]]
      by_cases hx : x.inactive_for_hours = k <;>
        simp [List.filter_cons, hx]
    · rw [show List.orderedInsert ruleOrder x (y :: ys)
          = y :: List.orderedInsert ruleOrder x ys by
        simp [List.orderedInsert, if_neg hord]]
      by_cases hy : y.inactive_for_hours = k
      · -- `x` is not in the class: otherwise the comparator would have held
        have hxk : x.inactive_for_hours ≠ k := by
          intro hxk
          exact hord (by simp [ruleOrder, hy, hxk])
        simp [List.filter_cons, hy, hxk, ih]
      · simp [List.filter_cons, hy, ih]

theorem filter_hours_insertionSort (k : Nat) (l : List ReminderRule) :
    (l.insertionSort ruleOrder).filter (fun s => decide (s.inactive_for_hours = k))
      = l.filter (fun s => decide (s.inactive_for_hours = k)) := by
  induction l with
  | nil => rfl
  | cons x xs ih =>
    show (List.orderedInsert ruleOrder x (xs.insertionSort ruleOrder)).filter _ = _
    rw [filter_hours_orderedInsert, ih]
    by_cases hx : x.inactive_for_hours = k <;> simp [List.filter_cons, hx]

theorem head?_filter_hours_of_find? {l : List ReminderRule} {d : Int}
    {r : ReminderRule}
    (hs : List.Pairwise ruleOrder l)
    (hf : l.find? (fun rule => decide (d ≥ durationHours rule.inactive_for_hours))
        = some r) :
    (l.filter (fun s => decide (s.inactive_for_hours = r.inactive_for_hours))).head?
      = some r := by
  induction l with
  | nil => simp at hf
  | cons x xs ih =>
    by_cases hx : d ≥ durationHours x.inactive_for_hours
    · rw [List.find?_cons_of_pos _ (by simpa using hx)] at hf
      obtain rfl : x = r := by injection hf
      simp [List.filter_cons]
    · rw [List.find?_cons_of_neg _ (by simpa using hx)] at hf
      have hrmatch : d ≥ durationHours r.inactive_for_hours := by
        have h1 := @List.find?_some ReminderRule
          (fun rule => decide (d ≥ durationHours rule.inactive_for_hours)) r xs hf
        exact of_decide_eq_true h1
      have hxnot : x.inactive_for_hours ≠ r.inactive_for_hours := by
        intro heq
        refine hx ?_
        rw [show durationHours x.inactive_for_hours
          = durationHours r.inactive_for_hours from by rw [heq]]
        exact hrmatch
      rw [List.filter_cons, if_neg (by simpa using hxnot)]
      exact ih (List.pairwise_cons.mp hs).2 hf

/-! ## Claim C1 -/

/-- C1: `select_rule` sorts the rules by `inactive_for_hours` descending with a
stable sort and returns the first rule whose threshold is at most the
inactivity duration: it returns `none` exactly when no rule's threshold is met
(in particular on the empty list), and any returned rule is a rule of the set
whose threshold is met, whose `inactive_for_hours` is greatest among the met
thresholds, and which is the earliest rule in the original order with that
`inactive_for_hours` value (the stable tie-break). -/
theorem select_rule_greatest_threshold (R : List ReminderRule) (d : Int) :
    (select_rule R d = none ↔
      ∀ r ∈ R, ¬ durationHours r.inactive_for_hours ≤ d) ∧
    ∀ r, select_rule R d = some r →
      r ∈ R ∧ durationHours r.inactive_for_hours ≤ d ∧
      (∀ s ∈ R, durationHours s.inactive_for_hours ≤ d →
        s.inactive_for_hours ≤ r.inactive_for_hours) ∧
      R.find? (fun s => decide (s.inactive_for_hours = r.inactive_for_hours))
        = some r := by
  have hperm := List.perm_insertionSort ruleOrder R
  have hsorted : List.Pairwise ruleOrder (R.insertionSort ruleOrder) :=
    List.sorted_insertionSort ruleOrder R
  constructor
  · rw [show select_rule R d = (R.insertionSort ruleOrder).find?
        (fun rule => decide (d ≥ durationHours rule.inactive_for_hours)) from rfl]
    rw [List.find?_eq_none]
    constructor
    · intro h r hr hmet
      have : r ∈ R.insertionSort ruleOrder := hperm.mem_iff.mpr hr
      exact h r this (by simpa [ge_iff_le] using hmet)
    · intro h r hr hmet
      have : r ∈ R := hperm.mem_iff.mp hr
      exact h r this (by simpa [ge_iff_le] using hmet)
  · intro r hf
    rw [show select_rule R d = (R.insertionSort ruleOrder).find?
        (fun rule => decide (d ≥ durationHours rule.inactive_for_hours)) from rfl]
      at hf
    have hmem : r ∈ R := hperm.mem_iff.mp (List.mem_of_find?_eq_some hf)
    have hmet : durationHours r.inactive_for_hours ≤ d := by
      have := List.find?_some hf
      simpa [ge_iff_le] using this
    refine ⟨hmem, hmet, ?_, ?_⟩
    · intro s hsR hsmet
      exact find?_sorted_max hsorted hf s (hperm.mem_iff.mpr hsR) hsmet
    · rw [find?_eq_head?_filter]
      rw [← filter_hours_insertionSort r.inactive_for_hours R]
      exact head?_filter_hours_of_find? hsorted hf

/-- Witness for C1: on rules at 24h and 72h with an 80-hour inactivity, the
theorem (instantiated concretely) yields that the selected rule's threshold is
met and maximal. -/
theorem select_rule_greatest_threshold_witness :
    (⟨"B", 72, none⟩ : ReminderRule) ∈
      [(⟨"A", 24, none⟩ : ReminderRule), ⟨"B", 72, none⟩] ∧
    durationHours 72 ≤ 80 * nsPerHour := by
  have hsel : select_rule [(⟨"A", 24, none⟩ : ReminderRule), ⟨"B", 72, none⟩]
      (80 * nsPerHour) = some ⟨"B", 72, none⟩ := by rfl
  have h := (select_rule_greatest_threshold
    [(⟨"A", 24, none⟩ : ReminderRule), ⟨"B", 72, none⟩] (80 * nsPerHour)).2
    ⟨"B", 72, none⟩ hsel
  exact ⟨h.1, h.2.1⟩

/-! ## Claim C2 -/

/-- C2: when the computed inactivity duration is negative (the conversation's
`updated_at` lies in the future of the evaluation time), no rule is applied —
`select_rule` returns `none` for every rule set, including a set containing a
rule with `inactive_for_hours = 0` — and `none` is the normal "no rule"
result, not an error. -/
theorem select_rule_negative_duration (R : List ReminderRule)
    (now last_message_time : Int) (hfuture : now < last_message_time) :
    select_rule R (inactive_duration now last_message_time) = none := by
  rw [show select_rule R (inactive_duration now last_message_time)
      = (R.insertionSort ruleOrder).find?
        (fun rule => decide (inactive_duration now last_message_time
          ≥ durationHours rule.inactive_for_hours)) from rfl]
  rw [List.find?_eq_none]
  intro r _
  have hneg : inactive_duration now last_message_time < 0 := by
    simpa [inactive_duration] using Int.sub_neg_of_lt hfuture
  have hpos : (0 : Int) ≤ durationHours r.inactive_for_hours := by
    have : (0 : Int) ≤ (r.inactive_for_hours : Int) := Int.ofNat_nonneg _
    have h2 : (0 : Int) ≤ nsPerHour := by decide
    exact mul_nonneg this h2
  simp only [decide_eq_true_iff, ge_iff_le]
  intro hle
  exact absurd (lt_of_le_of_lt (le_trans hpos hle) hneg) (lt_irrefl 0)

/-- Witness for C2: a rule set containing a zero-hour rule, evaluated one
nanosecond before the conversation's last update, selects no rule. -/
theorem select_rule_negative_duration_witness :
    select_rule [⟨"zero", 0, none⟩] (inactive_duration 5 6) = none :=
  select_rule_negative_duration [⟨"zero", 0, none⟩] 5 6 (by decide)

/-! ## Contact resolution, from `send_reminder_to_contact` in
`src/cmd/reminders.rs` (lines 77-101) -/

/-- `NIL_UUID` from `reminders.rs`. -/
def NIL_UUID : String := "00000000-0000-0000-0000-000000000000"

/-- Lines 80-89 of `reminders.rs`: the recipient-side contact reference if
present with a non-sentinel id, else the sender-side reference under the same
condition. -/
def contact_ref (latest_conversation : Conversation) :
    Option MessagingProductContact :=
  (latest_conversation.to_contact.filter (fun c => c.id ≠ NIL_UUID)).orElse
    (fun _ => latest_conversation.from_contact.filter (fun c => c.id ≠ NIL_UUID))

/-- Lines 94-101 of `reminders.rs`: use the in-conversation reference when one
was found, otherwise fall back to
`client.get_messaging_product_contact_by_id(contact_id)` — here the oracle
`lookup`, which returns the API call's outcome. -/
def resolve_contact (latest_conversation : Conversation)
    (lookup : Except String (Option MessagingProductContact)) :
    Except String MessagingProductContact :=
  match contact_ref latest_conversation with
  | some ctt => .ok ctt
  | none =>
    match lookup with
    | .error e => .error e
    | .ok none => .error "No messaging product contact found"
    | .ok (some c) => .ok c

/-! ## Claim C5 -/

/-- C5: the dispatcher resolves the acting contact in this order: the
recipient-side (`to`) contact if present with a non-sentinel id; otherwise the
sender-side (`from`) contact under the same condition; otherwise the secondary
API lookup by contact id. In particular a conversation with a sentinel
recipient contact and a valid sender contact resolves to the sender contact. -/
theorem resolve_contact_order (conv : Conversation)
    (lookup : Except String (Option MessagingProductContact)) :
    (∀ c, conv.to_contact = some c → c.id ≠ NIL_UUID →
      resolve_contact conv lookup = .ok c) ∧
    ((conv.to_contact = none ∨
        ∃ c, conv.to_contact = some c ∧ c.id = NIL_UUID) →
      ∀ c, conv.from_contact = some c → c.id ≠ NIL_UUID →
        resolve_contact conv lookup = .ok c) ∧
    ((conv.to_contact = none ∨
        ∃ c, conv.to_contact = some c ∧ c.id = NIL_UUID) →
      (conv.from_contact = none ∨
        ∃ c, conv.from_contact = some c ∧ c.id = NIL_UUID) →
      (∀ c, lookup = .ok (some c) → resolve_contact conv lookup = .ok c) ∧
      (lookup = .ok none →
        resolve_contact conv lookup = .error "No messaging product contact found") ∧
      (∀ e, lookup = .error e → resolve_contact conv lookup = .error e)) := by
  have hto_valid : ∀ c, conv.to_contact = some c → c.id ≠ NIL_UUID →
      contact_ref conv = some c := by
    intro c hc hid
    simp [contact_ref, hc, Option.filter, hid]
  have hto_invalid : (conv.to_contact = none ∨
      ∃ c, conv.to_contact = some c ∧ c.id = NIL_UUID) →
      contact_ref conv
        = conv.from_contact.filter (fun c => c.id ≠ NIL_UUID) := by
    rintro (hnone | ⟨c, hc, hid⟩)
    · simp [contact_ref, hnone, Option.orElse]
    · simp [contact_ref, hc, Option.filter, hid, Option.orElse]
  refine ⟨?_, ?_, ?_⟩
  · intro c hc hid
    simp [resolve_contact, hto_valid c hc hid]
  · intro hto c hc hid
    have hcr : contact_ref conv = some c := by
      rw [hto_invalid hto]
      simp [hc, Option.filter, hid]
    simp [resolve_contact, hcr]
  · intro hto hfrom
    have href : contact_ref conv = none := by
      rw [hto_invalid hto]
      rcases hfrom with hnone | ⟨c, hc, hid⟩
      · simp [hnone]
      · simp [hc, Option.filter, hid]
    refine ⟨?_, ?_, ?_⟩
    · intro c hl
      simp [resolve_contact, href, hl]
    · intro hl
      simp [resolve_contact, href, hl]
    · intro e hl
      simp [resolve_contact, href, hl]

/-- Sample messaging-product contact used by concrete scenarios: the
recipient-side placeholder carrying the sentinel id. -/
def sentinelContact : MessagingProductContact :=
  ⟨none, none, none, none, none, none, NIL_UUID, 0, 0⟩

/-- Sample messaging-product contact used by concrete scenarios: a valid
sender-side contact. -/
def senderContact : MessagingProductContact :=
  ⟨some "ct-1", none, none, none,
    some ⟨"ct-1", "Alice", none, none, 0, 0⟩, none,
    "11111111-1111-1111-1111-111111111111", 0, 0⟩

/-- Sample conversation whose recipient contact is the sentinel and whose
sender contact is valid. -/
def sentinelToConversation : Conversation :=
  ⟨"conv-1", some "f", some "t", some senderContact, some sentinelContact,
    0, 0, "mp-1", none, none⟩

/-- Witness for C5 (spec scenario 5): on a conversation with a sentinel
recipient contact and a valid sender contact, the theorem instantiated
concretely resolves to the sender contact, not the sentinel. -/
theorem resolve_contact_order_witness :
    resolve_contact sentinelToConversation (.ok none) = .ok senderContact :=
  (resolve_contact_order sentinelToConversation (.ok none)).2.1
    (Or.inr ⟨sentinelContact, rfl, rfl⟩) senderContact rfl (by decide)

/-! ## Email transport, from `send_reminder_email` in `src/core/email/mod.rs` -/

/-- `send_reminder_email` from `email/mod.rs` (lines 9-54): require an email
address, read the template (oracle `read_template`, by path), substitute the
contact name into it, then build and send the message over SMTP (oracle
`smtp_send`, taking the recipient address and the body). -/
def send_reminder_email (email_config : EmailConfig) (contact : Contact)
    (action : EmailAction)
    (read_template : String → Except String String)
    (smtp_send : String → String → Except String Unit) : Except String Unit :=
  match contact.email with
  | none => .error ("Contact " ++ contact.name ++ " has no email address.")
  | some recipient_email =>
    match read_template action.template with
    | .error e =>
        .error ("Failed to read email template from " ++ action.template
          ++ ": " ++ e)
    | .ok template_content =>
      let email_body := template_content.replace "{contact_name}" contact.name
      -- the `email_config` credentials feed the SMTP transport
      let _ := email_config
      smtp_send recipient_email email_body

/-! ## Action dispatch, from `send_reminder_to_contact` in
`src/cmd/reminders.rs` (lines 114-176): the body of `if let Some(rule) =
rule_to_apply`, i.e. what happens once a rule has matched. -/

/-- Oracles for every external network call dispatch can reach: the Wacraft
send-message endpoint, the email template file read, the SMTP transport and
the webhook transport. -/
structure DispatchEnv where
  send_message : SendWhatsAppMessage → Except String Unit
  read_template : String → Except String String
  smtp_send : String → String → Except String Unit
  http_send : HttpRequestAction → Contact → Except String Unit

/-- Lines 114-176 of `reminders.rs`, given the matched `rule`, the resolved
`contact` and the original `contact_id` argument. The embedded contact details
(`contact.contact`) are demanded before the action kinds are distinguished;
each action branch guards its network call with `if !mock`. -/
def dispatch_rule (settings : Settings) (contact_id : String)
    (contact : MessagingProductContact) (rule : ReminderRule) (mock : Bool)
    (env : DispatchEnv) : Except String Unit :=
  match contact.contact with
  | none =>
      .error ("Messaging product " ++ contact_id ++ " is missing contact details")
  | some wrp_contact =>
    match rule.action with
    | some (Action.wacraft_message action) =>
      match contact.product_details with
      | none => .error ("Contact " ++ contact_id ++ " missing product details")
      | some product_details =>
        let payload : MessagePayload :=
          { base := action.sender_data, «to» := product_details.wa_id }
        let message_to_send : SendWhatsAppMessage :=
          { to_id := contact_id, sender_data := payload }
        if mock then .ok () else env.send_message message_to_send
    | some (Action.email action) =>
      if mock then .ok ()
      else send_reminder_email settings.email wrp_contact action
        env.read_template env.smtp_send
    | some (Action.http_request action) =>
      if mock then .ok () else env.http_send action wrp_contact
    | none => .ok ()

/-! ## Claim C6 (corrected) -/

/-- Sample settings used by concrete dispatch scenarios. -/
def sampleSettings : Settings :=
  ⟨⟨"https://api", "admin@x", "pw", none, none, none⟩,
    ⟨"smtp.x", 587, "u", "p", "noreply@x"⟩⟩

/-- Sample dispatch environment whose oracles all succeed. -/
def sampleEnv : DispatchEnv :=
  ⟨fun _ => .ok (), fun _ => .ok "<p>Hello {contact_name}</p>",
    fun _ _ => .ok (), fun _ _ => .ok ()⟩

/-- Sample resolved messaging-product contact whose embedded contact details
carry no email address. -/
def contactNoEmail : MessagingProductContact :=
  ⟨some "ct-2", none, none, none,
    some ⟨"ct-2", "Bob", none, none, 0, 0⟩, none,
    "22222222-2222-2222-2222-222222222222", 0, 0⟩

/-- Sample reminder rule whose action sends an email. -/
def emailRule : ReminderRule :=
  ⟨"email-rule", 24, some (Action.email ⟨"We miss you", "tmpl.html"⟩)⟩

/-- Counterexample to C6 as stated: with `mock = true`, an Email action and a
resolved contact with no email address, dispatch succeeds — it does NOT fail
with a "no email address" error, because that check lives inside the email
transport, which the mock short-circuit skips. -/
theorem dispatch_mock_email_no_check :
    dispatch_rule sampleSettings "ct-2" contactNoEmail emailRule true sampleEnv
      = .ok () := rfl

/-- C6 (amended): with `mock = true` every action branch short-circuits
immediately before the external network call, and the validations performed in
the dispatcher itself (missing contact details, missing product details) still
execute; but the email-address check lives inside the email transport, so it
is skipped under mock: an Email action dispatch — for a contact with embedded
details but no email address — succeeds when `mock = true`, and fails with the
"no email address" error only when `mock = false`. -/
theorem dispatch_mock_short_circuit (settings : Settings) (contact_id : String)
    (contact : MessagingProductContact) (rule : ReminderRule)
    (env : DispatchEnv) :
    (contact.contact = none →
      dispatch_rule settings contact_id contact rule true env
        = .error ("Messaging product " ++ contact_id
            ++ " is missing contact details")) ∧
    (∀ wrp action, contact.contact = some wrp →
      rule.action = some (Action.wacraft_message action) →
      contact.product_details = none →
      dispatch_rule settings contact_id contact rule true env
        = .error ("Contact " ++ contact_id ++ " missing product details")) ∧
    (∀ wrp action, contact.contact = some wrp →
      rule.action = some (Action.email action) →
      (dispatch_rule settings contact_id contact rule true env = .ok ()) ∧
      (wrp.email = none →
        dispatch_rule settings contact_id contact rule false env
          = .error ("Contact " ++ wrp.name ++ " has no email address."))) := by
  refine ⟨?_, ?_, ?_⟩
  · intro hnone
    simp [dispatch_rule, hnone]
  · intro wrp action hc ha hpd
    simp [dispatch_rule, hc, ha, hpd]
  · intro wrp action hc ha
    constructor
    · simp [dispatch_rule, hc, ha]
    · intro hmail
      simp [dispatch_rule, hc, ha, send_reminder_email, hmail]

/-- Witness for the amended C6: concretely, the email dispatch to a contact
without an email address succeeds under mock and fails without mock. -/
theorem dispatch_mock_short_circuit_witness :
    dispatch_rule sampleSettings "ct-2" contactNoEmail emailRule true sampleEnv
        = .ok () ∧
    dispatch_rule sampleSettings "ct-2" contactNoEmail emailRule false sampleEnv
        = .error "Contact Bob has no email address." := by
  have h := (dispatch_mock_short_circuit sampleSettings "ct-2" contactNoEmail
    emailRule sampleEnv).2.2 ⟨"ct-2", "Bob", none, none, 0, 0⟩
    ⟨"We miss you", "tmpl.html"⟩ rfl rfl
  exact ⟨h.1, h.2 rfl⟩

/-! ## Claim C9 -/

/-- C9: whenever a rule has matched, dispatch requires the resolved
messaging-product contact to carry embedded contact details — failing with the
"missing contact details" error when they are absent, for every action kind
including `None` — and a matched no-action rule returns success exactly when
the contact details are present. -/
theorem dispatch_requires_contact_details (settings : Settings)
    (contact_id : String) (contact : MessagingProductContact)
    (rule : ReminderRule) (mock : Bool) (env : DispatchEnv) :
    (contact.contact = none →
      dispatch_rule settings contact_id contact rule mock env
        = .error ("Messaging product " ++ contact_id
            ++ " is missing contact details")) ∧
    (rule.action = none →
      (dispatch_rule settings contact_id contact rule mock env = .ok ()
        ↔ contact.contact ≠ none)) := by
  constructor
  · intro hnone
    simp [dispatch_rule, hnone]
  · intro haction
    constructor
    · intro hok hnone
      rw [show dispatch_rule settings contact_id contact rule mock env
          = .error ("Messaging product " ++ contact_id
            ++ " is missing contact details") from by simp [dispatch_rule, hnone]]
        at hok
      exact Except.noConfusion hok
    · intro hne
      match hc : contact.contact with
      | none => exact absurd hc hne
      | some wrp => simp [dispatch_rule, hc, haction]

/-- Sample reminder rule with no action. -/
def noActionRule : ReminderRule := ⟨"ack-only", 72, none⟩

/-- Sample resolved messaging-product contact with no embedded contact
details. -/
def contactNoDetails : MessagingProductContact :=
  ⟨none, none, none, none, none, none,
    "33333333-3333-3333-3333-333333333333", 0, 0⟩

/-- Witness for C9: concretely, a matched no-action rule fails with the
"missing contact details" error on a contact without embedded details, and
succeeds on one with them. -/
theorem dispatch_requires_contact_details_witness :
    dispatch_rule sampleSettings "ct-3" contactNoDetails noActionRule true sampleEnv
        = .error "Messaging product ct-3 is missing contact details" ∧
    dispatch_rule sampleSettings "ct-2" contactNoEmail noActionRule true sampleEnv
        = .ok () := by
  constructor
  · exact (dispatch_requires_contact_details sampleSettings "ct-3"
      contactNoDetails noActionRule true sampleEnv).1 rfl
  · exact ((dispatch_requires_contact_details sampleSettings "ct-2"
      contactNoEmail noActionRule true sampleEnv).2 rfl).mpr (by simp [contactNoEmail])

/-! ## Token lifecycle, from `get_valid_token` in `src/core/wacraft/client.rs`
(lines 33-108) -/

/-- The validity check run under both the read lock (lines 36-46) and the
write lock (lines 57-66): the stored token, provided both the token and its
expiry are present and the expiry lies strictly more than 60 seconds in the
future. -/
def check_token_valid (config : WacraftConfig) (now : Int) : Option String :=
  match config.access_token, config.token_expires_at with
  | some token, some expires_at =>
      if expires_at > now + 60 then some token else none
  | _, _ => none

/-- `_update_config_tokens` from `client.rs` (lines 146-155). -/
def update_config_tokens (config : WacraftConfig) (now : Int)
    (response : TokenResponse) : WacraftConfig :=
  { config with
      access_token := some response.access_token,
      refresh_token := some response.refresh_token,
      token_expires_at := some (now + response.expires_in) }

/-- The `TokenRequest` built for the refresh-token grant (lines 73-78). -/
def refresh_request (rt : String) : TokenRequest :=
  ⟨"refresh_token", none, none, some rt⟩

/-- The `TokenRequest` built for the password grant (lines 91-96). -/
def password_request (config : WacraftConfig) : TokenRequest :=
  ⟨"password", some config.email, some config.password, none⟩

/-- Outcome of a `get_valid_token` call: the returned value, the config as
left behind, and the requests actually posted to the token endpoint, in
order. -/
structure TokenResult where
  result : Except String String
  config : WacraftConfig
  requests : List TokenRequest

/-- The password-grant fallback of `get_valid_token` (lines 90-107), reached
when no refresh token exists or the refresh grant failed; `prior` carries any
request already issued. `get_token` is the oracle for `_get_token`, the POST
to the token endpoint. -/
def password_fallback (config : WacraftConfig) (now : Int)
    (get_token : TokenRequest → Except String TokenResponse)
    (prior : List TokenRequest) : TokenResult :=
  let request := password_request config
  match get_token request with
  | .error e =>
      ⟨.error ("Failed to get token with password credentials: " ++ e),
        config, prior ++ [request]⟩
  | .ok response =>
    let config2 := update_config_tokens config now response
    -- the code returns `config.access_token.clone().unwrap()`, which
    -- `_update_config_tokens` has just set to `response.access_token`
    ⟨.ok response.access_token, config2, prior ++ [request]⟩

/-- The write-locked section of `get_valid_token` (lines 53-107), which the
`RwLock` runs with exclusive access: re-check the token, then try the
refresh-token grant, then fall back to the password grant. -/
def refresh_exclusive (config : WacraftConfig) (now : Int)
    (get_token : TokenRequest → Except String TokenResponse) : TokenResult :=
  match check_token_valid config now with
  | some token => ⟨.ok token, config, []⟩
  | none =>
    match config.refresh_token with
    | some rt =>
      let request := refresh_request rt
      match get_token request with
      | .ok response =>
        let config2 := update_config_tokens config now response
        ⟨.ok response.access_token, config2, [request]⟩
      | .error _ => password_fallback config now get_token [request]
    | none => password_fallback config now get_token []

/-- `get_valid_token` (lines 33-108) as a sequential function: the read-locked
fast path followed, when it fails, by the write-locked refresh section. With a
single caller no other task can run between the two lock acquisitions, so both
checks see the same `config` and the same `now`. -/
def get_valid_token (config : WacraftConfig) (now : Int)
    (get_token : TokenRequest → Except String TokenResponse) : TokenResult :=
  match check_token_valid config now with
  | some token => ⟨.ok token, config, []⟩
  | none => refresh_exclusive config now get_token

/-! ### Helper facts about the token flow -/

theorem password_fallback_requests (config : WacraftConfig) (now : Int)
    (get_token : TokenRequest → Except String TokenResponse)
    (prior : List TokenRequest) :
    (password_fallback config now get_token prior).requests
      = prior ++ [password_request config] := by
  cases hg : get_token (password_request config) with
  | ok response => simp only [password_fallback, hg]
  | error e => simp only [password_fallback, hg]

theorem refresh_exclusive_requests_ne_nil (config : WacraftConfig) (now : Int)
    (get_token : TokenRequest → Except String TokenResponse)
    (hcheck : check_token_valid config now = none) :
    (refresh_exclusive config now get_token).requests ≠ [] := by
  cases hrt : config.refresh_token with
  | some rt =>
    cases hg : get_token (refresh_request rt) with
    | ok response => simp [refresh_exclusive, hcheck, hrt, hg]
    | error e =>
      simp only [refresh_exclusive, hcheck, hrt, hg]
      rw [password_fallback_requests]
      simp
  | none =>
    simp only [refresh_exclusive, hcheck, hrt]
    rw [password_fallback_requests]
    simp

/-! ## Claim C3 -/

/-- C3: `get_valid_token` returns the stored access token without posting any
grant request (and without touching the config) exactly when an access token
and an expiry are both present and the expiry is strictly more than 60 seconds
after the current time; in particular, with `expires_at = now + 30`, a grant
request is posted before returning. -/
theorem get_valid_token_fast_path (config : WacraftConfig) (now : Int)
    (get_token : TokenRequest → Except String TokenResponse) :
    (((get_valid_token config now get_token).requests = [] ∧
      ∃ t, config.access_token = some t ∧
        (get_valid_token config now get_token).result = .ok t ∧
        (get_valid_token config now get_token).config = config)
      ↔ ∃ t e, config.access_token = some t ∧
          config.token_expires_at = some e ∧ now + 60 < e) ∧
    (config.token_expires_at = some (now + 30) →
      (get_valid_token config now get_token).requests ≠ []) := by
  have hval : ∀ t, check_token_valid config now = some t →
      ∃ e, config.access_token = some t ∧
        config.token_expires_at = some e ∧ now + 60 < e := by
    intro t h
    cases ha : config.access_token with
    | none => simp [check_token_valid, ha] at h
    | some tok =>
      cases he : config.token_expires_at with
      | none => simp [check_token_valid, ha, he] at h
      | some exp =>
        simp only [check_token_valid, ha, he] at h
        by_cases hgt : exp > now + 60
        · rw [if_pos hgt] at h
          exact ⟨exp, h, rfl, hgt⟩
        · rw [if_neg hgt] at h
          exact absurd h (Option.noConfusion)
  have hval2 : ∀ t e, config.access_token = some t →
      config.token_expires_at = some e → now + 60 < e →
      check_token_valid config now = some t := by
    intro t e ha he hgt
    simp only [check_token_valid, ha, he]
    rw [if_pos hgt]
  constructor
  · constructor
    · rintro ⟨hreq, t, ha, hres, hcfg⟩
      cases hc : check_token_valid config now with
      | some tok =>
        obtain ⟨e, ha2, he2, hgt⟩ := hval tok hc
        exact ⟨tok, e, ha2, he2, hgt⟩
      | none =>
        have hslow : get_valid_token config now get_token
            = refresh_exclusive config now get_token := by
          simp only [get_valid_token, hc]
        rw [hslow] at hreq
        exact absurd hreq (refresh_exclusive_requests_ne_nil config now get_token hc)
    · rintro ⟨t, e, ha, he, hgt⟩
      have hc := hval2 t e ha he hgt
      have hget : get_valid_token config now get_token = ⟨.ok t, config, []⟩ := by
        simp only [get_valid_token, hc]
      exact ⟨by rw [hget], t, ha, by rw [hget], by rw [hget]⟩
  · intro hexp
    have hc : check_token_valid config now = none := by
      cases ha : config.access_token with
      | none => simp [check_token_valid, ha]
      | some tok =>
        simp only [check_token_valid, ha, hexp]
        rw [if_neg (by omega)]
    have hslow : get_valid_token config now get_token
        = refresh_exclusive config now get_token := by
      simp only [get_valid_token, hc]
    rw [hslow]
    exact refresh_exclusive_requests_ne_nil config now get_token hc

/-- Sample Wacraft configuration holding a token that expires 30 seconds from
the sample evaluation time 1000. -/
def cfgExpiring : WacraftConfig :=
  ⟨"https://api", "admin@x", "pw", some "old-token", some "rt-1", some 1030⟩

/-- Sample oracle for the token endpoint: the refresh grant succeeds with a
fresh one-hour token. -/
def grantOracle : TokenRequest → Except String TokenResponse :=
  fun request =>
    if request.grant_type = "refresh_token"
    then .ok ⟨"new-token", "rt-2", 3600, "Bearer"⟩
    else .error "password grant not expected"

/-- Witness for C3: a token stored with `expires_at = now + 30` (scenario 4)
falls outside the 60-second margin, so a grant request is posted; and the
fast-path characterization applied at a config whose token is fresh yields the
stored token with no request. -/
theorem get_valid_token_fast_path_witness :
    (get_valid_token cfgExpiring 1000 grantOracle).requests ≠ [] ∧
    (get_valid_token ⟨"https://api", "a@x", "pw", some "tok", none, some 5000⟩
      1000 grantOracle).requests = [] := by
  constructor
  · exact (get_valid_token_fast_path cfgExpiring 1000 grantOracle).2 rfl
  · exact ((get_valid_token_fast_path
      ⟨"https://api", "a@x", "pw", some "tok", none, some 5000⟩
      1000 grantOracle).1.mpr ⟨"tok", 5000, rfl, rfl, by omega⟩).1

/-! ## Claim C4 -/

/-- C4: when the stored token is absent or within the 60-second margin, the
refresh-token grant is attempted first whenever a refresh token is present; on
its failure (or when no refresh token exists) exactly one password grant with
the stored principal email and password is attempted; a failed password grant
is propagated as the final error with no retry, and any successful grant
stores the new tokens and returns the newly stored access token. -/
theorem get_valid_token_grant_cascade (config : WacraftConfig) (now : Int)
    (get_token : TokenRequest → Except String TokenResponse)
    (hcheck : check_token_valid config now = none) :
    (∀ rt response, config.refresh_token = some rt →
      get_token (refresh_request rt) = .ok response →
      get_valid_token config now get_token
        = ⟨.ok response.access_token, update_config_tokens config now response,
            [refresh_request rt]⟩ ∧
      (update_config_tokens config now response).access_token
        = some response.access_token) ∧
    (∀ rt e response, config.refresh_token = some rt →
      get_token (refresh_request rt) = .error e →
      get_token (password_request config) = .ok response →
      get_valid_token config now get_token
        = ⟨.ok response.access_token, update_config_tokens config now response,
            [refresh_request rt, password_request config]⟩) ∧
    (∀ rt e e2, config.refresh_token = some rt →
      get_token (refresh_request rt) = .error e →
      get_token (password_request config) = .error e2 →
      get_valid_token config now get_token
        = ⟨.error ("Failed to get token with password credentials: " ++ e2),
            config, [refresh_request rt, password_request config]⟩) ∧
    (config.refresh_token = none →
      (∀ response, get_token (password_request config) = .ok response →
        get_valid_token config now get_token
          = ⟨.ok response.access_token, update_config_tokens config now response,
              [password_request config]⟩) ∧
      (∀ e2, get_token (password_request config) = .error e2 →
        get_valid_token config now get_token
          = ⟨.error ("Failed to get token with password credentials: " ++ e2),
              config, [password_request config]⟩)) := by
  have hslow : get_valid_token config now get_token
      = refresh_exclusive config now get_token := by
    simp only [get_valid_token, hcheck]
  refine ⟨?_, ?_, ?_, ?_⟩
  · intro rt response hrt hok
    constructor
    · rw [hslow]
      simp only [refresh_exclusive, hcheck, hrt, hok]
    · rfl
  · intro rt e response hrt herr hok
    rw [hslow]
    simp only [refresh_exclusive, hcheck, hrt, herr, password_fallback, hok]
    rfl
  · intro rt e e2 hrt herr herr2
    rw [hslow]
    simp only [refresh_exclusive, hcheck, hrt, herr, password_fallback, herr2]
    rfl
  · intro hrt
    constructor
    · intro response hok
      rw [hslow]
      simp only [refresh_exclusive, hcheck, hrt, password_fallback, hok]
      rfl
    · intro e2 herr2
      rw [hslow]
      simp only [refresh_exclusive, hcheck, hrt, password_fallback, herr2]
      rfl

/-- Sample oracle for the token endpoint that rejects the refresh grant and
accepts the password grant. -/
def refreshFailsOracle : TokenRequest → Except String TokenResponse :=
  fun request =>
    if request.grant_type = "refresh_token"
    then .error "refresh revoked"
    else .ok ⟨"pw-token", "rt-3", 7200, "Bearer"⟩

/-- Witness for C4: with the 30-second-margin config, a failing refresh grant
falls back to one password grant, whose fresh token is stored and returned. -/
theorem get_valid_token_grant_cascade_witness :
    get_valid_token cfgExpiring 1000 refreshFailsOracle
      = ⟨.ok "pw-token",
          ⟨"https://api", "admin@x", "pw", some "pw-token", some "rt-3",
            some 8200⟩,
          [refresh_request "rt-1", password_request cfgExpiring]⟩ :=
  (get_valid_token_grant_cascade cfgExpiring 1000 refreshFailsOracle rfl).2.1
    "rt-1" "refresh revoked" ⟨"pw-token", "rt-3", 7200, "Bearer"⟩ rfl rfl rfl

/-! ## Daemon cycle, from `process_reminders_cycle` and `run_daemon_process`
in `src/daemon/mod.rs` (lines 41-109) -/

/-- One per-tick run of the fetch loop of `process_reminders_cycle` (lines
75-106). `fetches` is the sequence of answers `client.get_conversations`
would give at offsets `0, batch, 2*batch, ...`; a well-formed server stream
ends with an empty page or an error, and entries past the loop's exit are
never consumed. `send` is the oracle for `send_reminder_to_contact`. The
returned list is the tick's per-contact log: for every conversation carrying a
`to_contact`, the id passed to the dispatcher and the outcome, which the loop
logs (`info!`/`warn!`) and discards. -/
def process_reminders_cycle
    (fetches : List (Except String (List Conversation)))
    (send : String → Conversation → Except String Unit) :
    Except String Unit × List (String × Except String Unit) :=
  match fetches with
  | [] => (.ok (), [])
  | fetch :: rest =>
    match fetch with
    | .error e =>
        (.error ("Daemon: Failed to fetch conversations batch: " ++ e), [])
    | .ok conversations =>
      if conversations.isEmpty then (.ok (), [])
      else
        let page_log := conversations.filterMap (fun conversation =>
          conversation.to_contact.map (fun contact =>
            (contact.id, send contact.id conversation)))
        let rest_run := process_reminders_cycle rest send
        (rest_run.1, page_log ++ rest_run.2)

/-- The tick outcome as a function of the fetch stream alone: an error exactly
when a fetch fails before an empty page is seen. -/
def cycle_result (fetches : List (Except String (List Conversation))) :
    Except String Unit :=
  match fetches with
  | [] => .ok ()
  | .error e :: _ =>
      .error ("Daemon: Failed to fetch conversations batch: " ++ e)
  | .ok conversations :: rest =>
      if conversations.isEmpty then .ok () else cycle_result rest

/-- The contact ids the tick dispatches to, as a function of the fetch stream
alone. -/
def planned_dispatches (fetches : List (Except String (List Conversation))) :
    List String :=
  match fetches with
  | [] => []
  | .error _ :: _ => []
  | .ok conversations :: rest =>
      if conversations.isEmpty then []
      else conversations.filterMap (fun conversation =>
        conversation.to_contact.map (fun contact => contact.id))
        ++ planned_dispatches rest

/-- The daemon loop of `run_daemon_process` (lines 60-66) over a finite
schedule of ticks (one `fetches` stream per tick): each tick's result is
logged — `if let Err(e) = ... { error!(...) }` — and the loop continues
unconditionally to the next scheduled tick. -/
def run_daemon_ticks
    (ticks : List (List (Except String (List Conversation))))
    (send : String → Conversation → Except String Unit) :
    List (Except String Unit) :=
  match ticks with
  | [] => []
  | fetches :: rest =>
      (process_reminders_cycle fetches send).1 :: run_daemon_ticks rest send

/-! ## Claim C7 -/

/-- C7: a failure while processing one contact is caught and logged and never
aborts the tick — the tick's outcome and the full dispatch schedule are
functions of the fetch stream alone, independent of every per-contact result —
whereas a failing page fetch aborts the whole tick with its error (wrapped in
the daemon's context message), and the daemon still runs every further
scheduled tick. -/
theorem cycle_isolates_contact_failures
    (fetches : List (Except String (List Conversation)))
    (send : String → Conversation → Except String Unit) :
    ((process_reminders_cycle fetches send).1 = cycle_result fetches) ∧
    ((process_reminders_cycle fetches send).2.map Prod.fst
      = planned_dispatches fetches) ∧
    (∀ e rest, cycle_result (.error e :: rest)
      = .error ("Daemon: Failed to fetch conversations batch: " ++ e)) ∧
    (∀ ticks, (run_daemon_ticks ticks send).length = ticks.length) := by
  refine ⟨?_, ?_, fun e rest => rfl, ?_⟩
  · induction fetches with
    | nil => rfl
    | cons fetch rest ih =>
      cases fetch with
      | error e => rfl
      | ok conversations =>
        by_cases hempty : conversations.isEmpty
        · simp [process_reminders_cycle, cycle_result, hempty]
        · simp [process_reminders_cycle, cycle_result, hempty, ih]
  · induction fetches with
    | nil => rfl
    | cons fetch rest ih =>
      cases fetch with
      | error e => rfl
      | ok conversations =>
        have hlog : (conversations.filterMap (fun conversation =>
              conversation.to_contact.map (fun contact =>
                (contact.id, send contact.id conversation)))).map Prod.fst
            = conversations.filterMap (fun conversation =>
                conversation.to_contact.map (fun contact => contact.id)) := by
          rw [List.map_filterMap]
          congr 1
          funext conversation
          cases conversation.to_contact <;> rfl
        by_cases hempty : conversations.isEmpty
        · simp [process_reminders_cycle, planned_dispatches, hempty]
        · simp [process_reminders_cycle, planned_dispatches, hempty, ih, hlog]
  · intro ticks
    induction ticks with
    | nil => rfl
    | cons fetches2 rest ih => simp [run_daemon_ticks, ih]

/-! ## Claim C10 -/

/-- C10: within a tick, the dispatcher is invoked for a conversation exactly
when its recipient-side (`to`) contact field is present, and the contact id
passed is that recipient contact's own id, with no sentinel check at this
level: the page's dispatch log is the page's `to_contact`-bearing
conversations with their recipient ids (so a sender-only conversation is
skipped and a sentinel recipient id is passed through), followed by the rest
of the tick. -/
theorem cycle_dispatches_to_contacts (page : List Conversation)
    (rest : List (Except String (List Conversation)))
    (send : String → Conversation → Except String Unit)
    (hne : page ≠ []) :
    (process_reminders_cycle (.ok page :: rest) send).2
      = page.filterMap (fun conversation =>
          conversation.to_contact.map (fun contact =>
            (contact.id, send contact.id conversation)))
        ++ (process_reminders_cycle rest send).2 := by
  have hempty : page.isEmpty = false := by
    cases page with
    | nil => exact absurd rfl hne
    | cons c cs => rfl
  simp [process_reminders_cycle, hempty]

/-- Sample conversation whose only contact reference is sender-side. -/
def fromOnlyConversation : Conversation :=
  ⟨"conv-2", some "f", none, some senderContact, none, 0, 0, "mp-1", none, none⟩

/-- Witness for C10: on a concrete page holding a sentinel-recipient
conversation and a sender-only conversation, the theorem instantiated
concretely dispatches exactly once, passing the sentinel id through and
skipping the sender-only conversation. -/
theorem cycle_dispatches_to_contacts_witness :
    (process_reminders_cycle
        [.ok [sentinelToConversation, fromOnlyConversation], .ok []]
        (fun _ _ => .error "boom")).2
      = [(NIL_UUID, .error "boom")] := by
  rw [cycle_dispatches_to_contacts
    [sentinelToConversation, fromOnlyConversation] [.ok []]
    (fun _ _ => .error "boom") (by simp)]
  rfl

/-! ## Concurrency model for `get_valid_token`, from `src/core/wacraft/client.rs`
(lines 33-108)

`N` tasks share one `Arc<RwLock<WacraftConfig>>` and race through
`get_valid_token`. Each task executes two lock-protected critical sections in
program order: the read-locked check (lines 35-48, which never writes) and —
only if that check failed — the write-locked section (lines 53-107, embedded
above as `refresh_exclusive`). The `tokio::sync::RwLock` guarantees each
section runs with no concurrent writer, so an execution is an arbitrary
interleaving of these atomic sections: a schedule of task indices, each index
firing the next pending section of that task. `requests` accumulates every
POST made to the token endpoint across all tasks. -/

/-- Where a racing task stands: before its read-locked check, waiting for the
write lock, or finished with its return value. -/
inductive TaskPhase where
  | start
  | needWrite
  | finished (result : Except String String)

/-- Shared state of the race: the config behind the `RwLock`, the token
requests issued so far (across all tasks), and each task's phase. -/
structure RaceState where
  config : WacraftConfig
  requests : List TokenRequest
  tasks : List TaskPhase

/-- Fire task `i`'s next pending critical section (a no-op for a finished task
or an out-of-range index). -/
def step_task (now : Int)
    (get_token : TokenRequest → Except String TokenResponse)
    (s : RaceState) (i : Nat) : RaceState :=
  match s.tasks.get? i with
  | none => s
  | some TaskPhase.start =>
    -- read-locked check, lines 35-48: no state mutation
    match check_token_valid s.config now with
    | some token =>
        { s with tasks := s.tasks.set i (TaskPhase.finished (.ok token)) }
    | none => { s with tasks := s.tasks.set i TaskPhase.needWrite }
  | some TaskPhase.needWrite =>
    -- write-locked section, lines 53-107: atomic under the lock
    let run := refresh_exclusive s.config now get_token
    { config := run.config, requests := s.requests ++ run.requests,
      tasks := s.tasks.set i (TaskPhase.finished run.result) }
  | some (TaskPhase.finished _) => s

/-- Run a whole schedule of critical-section firings. -/
def run_race (now : Int)
    (get_token : TokenRequest → Except String TokenResponse)
    (s : RaceState) : List Nat → RaceState
  | [] => s
  | i :: schedule => run_race now get_token (step_task now get_token s i) schedule

/-- `N` tasks about to call `get_valid_token` against a shared config. -/
def init_race (N : Nat) (config : WacraftConfig) : RaceState :=
  ⟨config, [], List.replicate N TaskPhase.start⟩

/-- Invariant of the race when the initial token fails the expiry check and
the refresh grant answers `response`: either nobody has entered the write
section yet (initial config, no requests, no task finished), or exactly one
refresh request has been issued, the config holds the refreshed tokens, and
every finished task returned the refreshed access token. -/
def RaceInv (config : WacraftConfig) (now : Int) (rt : String)
    (response : TokenResponse) (s : RaceState) : Prop :=
  (s.config = config ∧ s.requests = [] ∧
    ∀ p ∈ s.tasks, p = TaskPhase.start ∨ p = TaskPhase.needWrite)
  ∨ (s.config = update_config_tokens config now response ∧
     s.requests = [refresh_request rt] ∧
     ∀ p ∈ s.tasks, p = TaskPhase.start ∨ p = TaskPhase.needWrite ∨
       p = TaskPhase.finished (.ok response.access_token))

/-! ## Claim C8 -/

/-- C8: under `N` concurrent `get_valid_token` calls racing at the same expiry
event (the stored token fails the 60-second check, a refresh token is present,
and the refresh grant succeeds with a token valid for more than 60 seconds),
the double-checked locking discipline — check under the read lock, re-check
under the write lock — guarantees that for every interleaving at most one
request reaches the token endpoint and every call that has returned returned
the same refreshed access token. -/
theorem get_valid_token_race (N : Nat) (config : WacraftConfig) (now : Int)
    (get_token : TokenRequest → Except String TokenResponse)
    (rt : String) (response : TokenResponse)
    (h0 : check_token_valid config now = none)
    (hrt : config.refresh_token = some rt)
    (hok : get_token (refresh_request rt) = .ok response)
    (hexp : 60 < response.expires_in) :
    ∀ schedule : List Nat,
      (run_race now get_token (init_race N config) schedule).requests.length ≤ 1 ∧
      ∀ i r, (run_race now get_token (init_race N config) schedule).tasks.get? i
          = some (TaskPhase.finished r) → r = .ok response.access_token := by
  have hcheck1 : check_token_valid (update_config_tokens config now response) now
      = some response.access_token := by
    simp only [check_token_valid, update_config_tokens]
    rw [if_pos (by omega)]
  have hre0 : refresh_exclusive config now get_token
      = ⟨.ok response.access_token, update_config_tokens config now response,
          [refresh_request rt]⟩ := by
    simp only [refresh_exclusive, h0, hrt, hok]
  have hre1 : refresh_exclusive (update_config_tokens config now response) now
      get_token
      = ⟨.ok response.access_token, update_config_tokens config now response,
          []⟩ := by
    simp only [refresh_exclusive, hcheck1]
  have hstep : ∀ s i, RaceInv config now rt response s →
      RaceInv config now rt response (step_task now get_token s i) := by
    intro s i hinv
    cases hget : s.tasks.get? i with
    | none =>
      rw [show step_task now get_token s i = s from by
        simp only [step_task, hget]]
      exact hinv
    | some p =>
      have hpmem : p ∈ s.tasks := List.get?_mem hget
      rcases hinv with ⟨hcfg, hreq, htasks⟩ | ⟨hcfg, hreq, htasks⟩
      · -- before any write section: the shared config is still the stale one
        rcases htasks p hpmem with rfl | rfl
        · rw [show step_task now get_token s i
              = { s with tasks := s.tasks.set i TaskPhase.needWrite } from by
            simp only [step_task, hget, hcfg, h0]]
          refine Or.inl ⟨hcfg, hreq, ?_⟩
          intro q hq
          rcases List.mem_or_eq_of_mem_set hq with hq2 | rfl
          · exact htasks q hq2
          · exact Or.inr rfl
        · rw [show step_task now get_token s i
              = { config := (refresh_exclusive s.config now get_token).config,
                  requests := s.requests
                    ++ (refresh_exclusive s.config now get_token).requests,
                  tasks := s.tasks.set i (TaskPhase.finished
                    (refresh_exclusive s.config now get_token).result) } from by
            simp only [step_task, hget]]
          rw [hcfg, hre0, hreq]
          refine Or.inr ⟨rfl, rfl, ?_⟩
          intro q hq
          rcases List.mem_or_eq_of_mem_set hq with hq2 | rfl
          · rcases htasks q hq2 with rfl | rfl
            · exact Or.inl rfl
            · exact Or.inr (Or.inl rfl)
          · exact Or.inr (Or.inr rfl)
      · -- after the single refresh: the shared config holds the fresh token
        rcases htasks p hpmem with rfl | rfl | rfl
        · rw [show step_task now get_token s i
              = { s with tasks := s.tasks.set i (TaskPhase.finished
                  (.ok response.access_token)) } from by
            simp only [step_task, hget, hcfg, hcheck1]]
          refine Or.inr ⟨hcfg, hreq, ?_⟩
          intro q hq
          rcases List.mem_or_eq_of_mem_set hq with hq2 | rfl
          · exact htasks q hq2
          · exact Or.inr (Or.inr rfl)
        · rw [show step_task now get_token s i
              = { config := (refresh_exclusive s.config now get_token).config,
                  requests := s.requests
                    ++ (refresh_exclusive s.config now get_token).requests,
                  tasks := s.tasks.set i (TaskPhase.finished
                    (refresh_exclusive s.config now get_token).result) } from by
            simp only [step_task, hget]]
          rw [hcfg, hre1]
          refine Or.inr ⟨rfl, by rw [hreq]; rfl, ?_⟩
          intro q hq
          rcases List.mem_or_eq_of_mem_set hq with hq2 | rfl
          · exact htasks q hq2
          · exact Or.inr (Or.inr rfl)
        · rw [show step_task now get_token s i = s from by
            simp only [step_task, hget]]
          exact Or.inr ⟨hcfg, hreq, htasks⟩
  have hrun : ∀ (schedule : List Nat) (s : RaceState),
      RaceInv config now rt response s →
      RaceInv config now rt response (run_race now get_token s schedule) := by
    intro schedule
    induction schedule with
    | nil => intro s h; exact h
    | cons i rest ih =>
      intro s h
      exact ih _ (hstep s i h)
  intro schedule
  have hfinal := hrun schedule (init_race N config)
    (Or.inl ⟨rfl, rfl, fun p hp => Or.inl (List.eq_of_mem_replicate hp)⟩)
  rcases hfinal with ⟨_, hreq, htasks⟩ | ⟨_, hreq, htasks⟩
  · refine ⟨by rw [hreq]; exact Nat.zero_le 1, ?_⟩
    intro i r hget
    rcases htasks _ (List.get?_mem hget) with h | h <;>
      exact absurd h (by intro h2; exact TaskPhase.noConfusion h2)
  · refine ⟨by rw [hreq]; exact Nat.le_refl 1, ?_⟩
    intro i r hget
    rcases htasks _ (List.get?_mem hget) with h | h | h
    · exact absurd h (by intro h2; exact TaskPhase.noConfusion h2)
    · exact absurd h (by intro h2; exact TaskPhase.noConfusion h2)
    · exact TaskPhase.finished.inj h

/-- Witness for C8: two concrete tasks race through a full schedule against
the 30-second-margin config; the theorem instantiated there bounds the
endpoint traffic by one request, and the concrete run indeed issues exactly
the one refresh request with both tasks finishing on the refreshed token. -/
theorem get_valid_token_race_witness :
    (run_race 1000 grantOracle (init_race 2 cfgExpiring) [0, 1, 0, 1]).requests.length
        ≤ 1 ∧
    (run_race 1000 grantOracle (init_race 2 cfgExpiring) [0, 1, 0, 1]).tasks
        = [TaskPhase.finished (.ok "new-token"),
           TaskPhase.finished (.ok "new-token")] := by
  constructor
  · exact (get_valid_token_race 2 cfgExpiring 1000 grantOracle "rt-1"
      ⟨"new-token", "rt-2", 3600, "Bearer"⟩ rfl rfl rfl (by decide) [0, 1, 0, 1]).1
  · rfl

end WacraftReminders
